/-
Verification of the CodeSenseAI webhook-driven background analysis pipeline.

This file shallowly embeds the parts of the repository that the verified
properties are about:

* `_run_code_analysis` from `app/api/routes/reviews.py` (the background
  orchestrator), together with the session created by `analyze_pull_request`;
* `GitHubService.verify_webhook_signature` from `app/services/github_service.py`,
  including a concrete executable HMAC-SHA256 so the signature computation is
  grounded in the real algorithm (Python delegates it to `hmac`/`hashlib`);
* the repository get-or-create logic and the analysis-trigger condition of
  `_handle_pull_request_event` from `app/api/routes/webhooks.py`.

External collaborators (GitHub content fetch, the LLM analyzer, the static
analysis CLIs, the database commits) are modelled by an environment `Env`
that fixes, per file index, what the collaborators return or whether they
raise; the orchestrator itself is translated statement by statement from the
Python source. Database commits are modelled as snapshots: `snaps` records
the session row as it becomes observable to concurrent readers at each
`db.commit()`.
-/
import Mathlib

namespace CodeSenseAI

/-! ## Data model (from `app/core/database.py` and `app/schemas/review.py`) -/

/-- One entry of `ReviewRequest.files`: the dict `{path, language?, changed_lines?}`.
`language` and `changed_lines` are optional keys, read with
`file_info.get("language", "unknown")` and `file_info.get("changed_lines", [])`. -/
structure FileInfo where
  path : String
  language : Option String
  changed_lines : List Nat
deriving Repr, DecidableEq

/-- One issue dict as returned by the AI analyzer (`bugs` / `security_issues`
entries) or the static analyzer (`security_issues` entries). Every field is
read with `.get`, so every field is optional. -/
structure Issue where
  line : Option Int
  severity : Option String
  title : Option String
  description : Option String
  suggestion : Option String
  confidence : Option Int
  tool : Option String
deriving Repr, DecidableEq

/-- The result dict of `CodeAnalysisService.analyze_code`
(`app/services/code_analysis.py`, lines 210-221): the orchestrator reads the
keys `bugs` and `security_issues`; `quality_issues` is also present but never
persisted. -/
structure AIResult where
  bugs : List Issue
  security_issues : List Issue
  quality_issues : List Issue
deriving Repr, DecidableEq

/-- The result dict of `StaticAnalysisService.analyze_code`
(`app/services/static_analysis.py`, lines 28-34): the orchestrator reads only
`security_issues`; `quality_issues` and `dependency_issues` are also present
but never persisted. -/
structure StaticResult where
  security_issues : List Issue
  quality_issues : List Issue
  dependency_issues : List Issue
deriving Repr, DecidableEq

/-- The body of POST `/analyze` (`ReviewRequest` in `app/schemas/review.py`). -/
structure ReviewRequest where
  repository_id : Int
  pull_request_id : Int
  owner : String
  repo : String
  pr_number : Int
  pr_title : String
  head_sha : String
  base_sha : String
  files : List FileInfo
deriving Repr, DecidableEq

/-- A `CodeReview` row (`app/core/database.py`, class `CodeReview`), as
constructed by the orchestrator. The JSON `metadata` column is modelled by its
two fields that the orchestrator writes: `source` (`"ai"` or `"static"`) and
the optional `tool` name. -/
structure CodeReview where
  repository_id : Int
  pull_request_id : Int
  file_path : String
  line_number : Option Int
  review_type : String
  severity : String
  title : String
  description : String
  suggestion : String
  ai_confidence : Int
  source : String
  tool : Option String
deriving Repr, DecidableEq

/-- A `ReviewSession` row (`app/core/database.py`, class `ReviewSession`).
Timestamps are abstract instants (`Nat`); `completed_at` is nullable. -/
structure ReviewSession where
  session_id : String
  repository_id : Int
  pull_request_id : Int
  status : String
  total_files : Nat
  processed_files : Nat
  total_issues : Nat
  completed_at : Option Nat
  error_message : Option String
deriving Repr, DecidableEq

/-! ## Collaborator environment

`_run_code_analysis` calls out to GitHub (`get_file_content`), the AI analyzer
(`analyze_code`), the static analyzer, and the database. The environment fixes
their behaviour for one run. Per file index, the body of the per-file `try`
either takes the skip path (`fetchNone`, the `if not file_content: continue`),
raises before `ai_result` is assigned (`raiseBefore`: the fetch or the AI call
fails), raises after `ai_result` is assigned but before any row is staged
(`raiseAfterAi`: the static-analysis call fails), raises at a row boundary of
the three save loops after `k` rows were already `db.add`-ed and counted by
the local counter (`raiseMidSave`, e.g. a malformed entry in one of the result
lists — the staged rows stay pending in the ORM session and are persisted by
the next successful commit, while the session row's counters are not updated
for this file), or runs to completion (`ok`). All exceptions here are caught
by the per-file `except` at reviews.py line 305. -/

inductive FileOutcome where
  | fetchNone : FileOutcome
  | raiseBefore : String → FileOutcome
  | raiseAfterAi : AIResult → String → FileOutcome
  | raiseMidSave : AIResult → StaticResult → Nat → String → FileOutcome
  | ok : AIResult → StaticResult → FileOutcome
deriving Repr, DecidableEq

/-- Whether a per-file outcome stages rows without reaching the progress
update (the partially-persisted-file failure mode). -/
def FileOutcome.isPartialSave : FileOutcome → Bool
  | FileOutcome.raiseMidSave _ _ _ _ => true
  | _ => false

/-- Where an exception escapes the per-file loop, when one does.

* `sessionLoad`: the session query at reviews.py line 208 raises (or returns
  `None`): the outer `except` then evaluates `session.status = "failed"` with
  `session` unbound (or `None`) and itself raises, so nothing is committed and
  the session row stays exactly as `analyze_pull_request` created it.
* `claimCommit`: the `db.commit()` at line 210 raises with the session loaded:
  the outer `except` sets `status = "failed"`, stores the message, and
  commits; `completed_at` is never assigned.
* `completionCommit`: the loop and the summary block complete, `status` and
  `completed_at` are assigned at lines 337-338, and the `db.commit()` at line
  339 raises: the outer `except` overwrites `status` with `"failed"`, stores
  the message, and commits — persisting the already-assigned `completed_at`
  (and any staged rows) alongside the failure. -/
inductive EscapeSite where
  | sessionLoad : String → EscapeSite
  | claimCommit : String → EscapeSite
  | completionCommit : String → EscapeSite
deriving Repr, DecidableEq

/-- The environment of one run: whether (and where) an exception escapes the
per-file loop, the per-file collaborator outcomes, what
`generate_review_summary` does, and the instant `datetime.utcnow()` returns
at completion. Commits reached by the modelled control flow are assumed to
succeed except where `escape` says otherwise. -/
structure Env where
  escape : Option EscapeSite
  outcome : Nat → FileOutcome
  summaryOutcome : Except String String
  now : Nat

/-! ## Finding rows (reviews.py lines 247-298 and 318-331) -/

/-- Row built for one entry of `ai_result["bugs"]` (reviews.py lines 248-260). -/
def aiBugRow (req : ReviewRequest) (path : String) (b : Issue) : CodeReview :=
  { repository_id := req.repository_id
    pull_request_id := req.pull_request_id
    file_path := path
    line_number := b.line
    review_type := "bug"
    severity := b.severity.getD "medium"
    title := b.title.getD "Bug detected"
    description := b.description.getD ""
    suggestion := b.suggestion.getD ""
    ai_confidence := b.confidence.getD 75
    source := "ai"
    tool := none }

/-- Row built for one entry of `ai_result["security_issues"]`
(reviews.py lines 266-278). -/
def aiSecurityRow (req : ReviewRequest) (path : String) (s : Issue) : CodeReview :=
  { repository_id := req.repository_id
    pull_request_id := req.pull_request_id
    file_path := path
    line_number := s.line
    review_type := "security"
    severity := s.severity.getD "high"
    title := s.title.getD "Security issue"
    description := s.description.getD ""
    suggestion := s.suggestion.getD ""
    ai_confidence := s.confidence.getD 85
    source := "ai"
    tool := none }

/-- Row built for one entry of `static_result["security_issues"]`
(reviews.py lines 284-296). -/
def staticSecurityRow (req : ReviewRequest) (path : String) (s : Issue) : CodeReview :=
  { repository_id := req.repository_id
    pull_request_id := req.pull_request_id
    file_path := path
    line_number := s.line
    review_type := "security"
    severity := s.severity.getD "medium"
    title := s.title.getD "Static analysis issue"
    description := s.description.getD ""
    suggestion := s.suggestion.getD ""
    ai_confidence := s.confidence.getD 80
    source := "static"
    tool := s.tool }

/-- All rows persisted for one successfully analyzed file, in program order:
AI bugs, then AI security issues, then static security issues. -/
def fileRows (req : ReviewRequest) (path : String) (ai : AIResult)
    (st : StaticResult) : List CodeReview :=
  ai.bugs.map (aiBugRow req path)
    ++ ai.security_issues.map (aiSecurityRow req path)
    ++ st.security_issues.map (staticSecurityRow req path)

/-- The summary row (reviews.py lines 318-330). -/
def summaryRow (req : ReviewRequest) (summary : String) : CodeReview :=
  { repository_id := req.repository_id
    pull_request_id := req.pull_request_id
    file_path := "SUMMARY"
    line_number := some 0
    review_type := "summary"
    severity := "info"
    title := "AI Code Review Summary"
    description := summary
    suggestion := ""
    ai_confidence := 90
    source := "ai"
    tool := none }

/-! ## The background orchestrator `_run_code_analysis` -/

/-- Loop state of the per-file loop: the in-memory session row, the persisted
finding rows, the local `total_issues` counter, the `ai_result` variable
(which survives the loop and is reused for summary generation), and the
sequence of session snapshots committed so far. -/
structure LoopState where
  session : ReviewSession
  reviews : List CodeReview
  total_issues : Nat
  lastAi : Option AIResult
  snaps : List ReviewSession
deriving Repr

/-- One iteration of the per-file loop (reviews.py lines 215-307) at index
`i` for file `fi`. A falsy content fetch hits `continue` before the progress
update, so it changes nothing; an exception before `ai_result` is assigned
also leaves the state unchanged; an exception after the AI call only updates
the `ai_result` variable; an exception at a row boundary of the save loops
leaves the first `k` rows staged (they are committed by the next successful
commit) and the local counter incremented per staged row, while the session
row's counters are untouched and nothing is committed; a successful analysis
persists the finding rows, sets `processed_files = i + 1` and
`total_issues`, and commits (appending an observable snapshot). -/
def processFile (req : ReviewRequest) (env : Env) (st : LoopState)
    (i : Nat) (fi : FileInfo) : LoopState :=
  match env.outcome i with
  | FileOutcome.fetchNone => st
  | FileOutcome.raiseBefore _ => st
  | FileOutcome.raiseAfterAi ai _ => { st with lastAi := some ai }
  | FileOutcome.raiseMidSave ai stat k _ =>
      let rows := (fileRows req fi.path ai stat).take k
      { session := st.session
        reviews := st.reviews ++ rows
        total_issues := st.total_issues + rows.length
        lastAi := some ai
        snaps := st.snaps }
  | FileOutcome.ok ai stat =>
      let rows := fileRows req fi.path ai stat
      let issues := st.total_issues + rows.length
      let s := { st.session with processed_files := i + 1, total_issues := issues }
      { session := s
        reviews := st.reviews ++ rows
        total_issues := issues
        lastAi := some ai
        snaps := st.snaps ++ [s] }

/-- The per-file loop `for i, file_info in enumerate(request.files)`, starting
at index `i`. -/
def processFiles (req : ReviewRequest) (env : Env) :
    Nat → List FileInfo → LoopState → LoopState
  | _, [], st => st
  | i, fi :: rest, st => processFiles req env (i + 1) rest (processFile req env st i fi)

/-- Summary generation (reviews.py lines 309-334): `generate_review_summary`
is invoked on `[ai_result]`, the variable left over from the last loop
iteration. If no iteration ever assigned `ai_result`, evaluating the argument
raises `NameError`; that and any collaborator failure are caught by the
summary `except`, so the result is `none` (no summary row) rather than an
escaping exception. -/
def trySummary (lastAi : Option AIResult) (outcome : Except String String) :
    Option String :=
  match lastAi, outcome with
  | some _, Except.ok s => some s
  | some _, Except.error _ => none
  | none, _ => none

/-- Result of one orchestrator run: the final session row, the persisted
finding rows, and the sequence of committed session snapshots (the
observation points of concurrent readers), in order. -/
structure RunResult where
  session : ReviewSession
  reviews : List CodeReview
  snaps : List ReviewSession
deriving Repr

/-- `_run_code_analysis` (reviews.py lines 203-347) run against session row
`init`.

* `escape = some (sessionLoad _)`: the session query raises (or finds no
  row); the outer `except` raises on the unbound `session` before
  committing anything, so the row stays as created and no state is
  committed.
* `escape = some (claimCommit msg)`: the claim commit raises with the
  session loaded; the outer `except` sets `status = "failed"`, stores the
  message, and commits — `completed_at` and the counters stay at their
  initial values.
* `escape = some (completionCommit msg)`: the run proceeds normally (claim
  commit, per-file loop, summary block, the assignments of `status` and
  `completed_at` at lines 337-338), the commit at line 339 raises, and the
  outer `except` overwrites `status` with `"failed"`, stores the message,
  and commits — persisting the stamped `completed_at`, the loop's counters,
  and every staged row.
* `escape = none`: the full normal path; the session is completed with
  `completed_at` stamped and committed. -/
def runCodeAnalysis (req : ReviewRequest) (env : Env) (init : ReviewSession) :
    RunResult :=
  match env.escape with
  | some (EscapeSite.sessionLoad _) =>
      { session := init, reviews := [], snaps := [] }
  | some (EscapeSite.claimCommit msg) =>
      let s := { init with status := "failed", error_message := some msg }
      { session := s, reviews := [], snaps := [s] }
  | some (EscapeSite.completionCommit msg) =>
      let s0 := { init with status := "running" }
      let st0 : LoopState :=
        { session := s0, reviews := [], total_issues := 0, lastAi := none, snaps := [s0] }
      let st1 := processFiles req env 0 req.files st0
      let reviews2 :=
        match trySummary st1.lastAi env.summaryOutcome with
        | some text => st1.reviews ++ [summaryRow req text]
        | none => st1.reviews
      let sF := { st1.session with
                    status := "failed"
                    completed_at := some env.now
                    error_message := some msg }
      { session := sF, reviews := reviews2, snaps := st1.snaps ++ [sF] }
  | none =>
      let s0 := { init with status := "running" }
      let st0 : LoopState :=
        { session := s0, reviews := [], total_issues := 0, lastAi := none, snaps := [s0] }
      let st1 := processFiles req env 0 req.files st0
      let reviews2 :=
        match trySummary st1.lastAi env.summaryOutcome with
        | some text => st1.reviews ++ [summaryRow req text]
        | none => st1.reviews
      let sF := { st1.session with status := "completed", completed_at := some env.now }
      { session := sF, reviews := reviews2, snaps := st1.snaps ++ [sF] }

/-- The loop state at the top of the per-file loop, right after the claim
commit: session marked `running` and committed, no rows, zero counter, the
`ai_result` variable not yet assigned. -/
def initLoopState (init : ReviewSession) : LoopState :=
  { session := { init with status := "running" }
    reviews := []
    total_issues := 0
    lastAi := none
    snaps := [{ init with status := "running" }] }

/-- The session row created by `analyze_pull_request` (reviews.py lines
39-50) before the background task is spawned: status `pending`,
`total_files` fixed to the length of the request's file list, counters at
their column defaults 0. -/
def initSession (req : ReviewRequest) (session_id : String) : ReviewSession :=
  { session_id := session_id
    repository_id := req.repository_id
    pull_request_id := req.pull_request_id
    status := "pending"
    total_files := req.files.length
    processed_files := 0
    total_issues := 0
    completed_at := none
    error_message := none }

/-- Every state of the session row a reader can observe, in order: the row as
created by `analyze_pull_request`, then each state committed by the
orchestrator. -/
def runTrace (req : ReviewRequest) (env : Env) (session_id : String) :
    List ReviewSession :=
  initSession req session_id :: (runCodeAnalysis req env (initSession req session_id)).snaps

/-! ## SignatureVerifier (`GitHubService.verify_webhook_signature`,
`app/services/github_service.py`, lines 26-38)

The Python code delegates the digest to `hmac.new(secret.encode("utf-8"),
payload, hashlib.sha256).hexdigest()`. We embed that collaborator concretely:
an executable HMAC-SHA256 over byte lists (bytes are `Nat` values `< 256`,
words are `Nat` values reduced `% 2^32`). -/

/-- `2^32`, the word modulus of SHA-256. -/
def w32 : Nat := 4294967296

/-- Right rotation of a 32-bit word. -/
def rotr32 (n x : Nat) : Nat := ((x >>> n) ||| (x <<< (32 - n))) % w32

/-- SHA-256 `Ch(x, y, z)`. -/
def ch32 (x y z : Nat) : Nat := (x &&& y) ^^^ ((x ^^^ 4294967295) &&& z)

/-- SHA-256 `Maj(x, y, z)`. -/
def maj32 (x y z : Nat) : Nat := (x &&& y) ^^^ (x &&& z) ^^^ (y &&& z)

/-- SHA-256 `Σ0`. -/
def bigSigma0 (x : Nat) : Nat := rotr32 2 x ^^^ rotr32 13 x ^^^ rotr32 22 x

/-- SHA-256 `Σ1`. -/
def bigSigma1 (x : Nat) : Nat := rotr32 6 x ^^^ rotr32 11 x ^^^ rotr32 25 x

/-- SHA-256 `σ0`. -/
def smallSigma0 (x : Nat) : Nat := rotr32 7 x ^^^ rotr32 18 x ^^^ (x >>> 3)

/-- SHA-256 `σ1`. -/
def smallSigma1 (x : Nat) : Nat := rotr32 17 x ^^^ rotr32 19 x ^^^ (x >>> 10)

/-- The 64 SHA-256 round constants (FIPS 180-2, written in decimal). -/
def sha256K : List Nat :=
  [1116352408, 1899447441, 3049323471, 3921009573, 961987163,
   1508970993, 2453635748, 2870763221, 3624381080, 310598401,
   607225278, 1426881987, 1925078388, 2162078206, 2614888103,
   3248222580, 3835390401, 4022224774, 264347078, 604807628,
   770255983, 1249150122, 1555081692, 1996064986, 2554220882,
   2821834349, 2952996808, 3210313671, 3336571891, 3584528711,
   113926993, 338241895, 666307205, 773529912, 1294757372,
   1396182291, 1695183700, 1986661051, 2177026350, 2456956037,
   2730485921, 2820302411, 3259730800, 3345764771, 3516065817,
   3600352804, 4094571909, 275423344, 430227734, 506948616,
   659060556, 883997877, 958139571, 1322822218, 1537002063,
   1747873779, 1955562222, 2024104815, 2227730452, 2361852424,
   2428436474, 2756734187, 3204031479, 3329325298]

/-- The SHA-256 initial hash value (FIPS 180-2, written in decimal). -/
def sha256H0 : List Nat :=
  [1779033703, 3144134277, 1013904242, 2773480762,
   1359893119, 2600822924, 528734635, 1541459225]

/-- `k` bytes of `n` in big-endian order. -/
def natToBytesBE : Nat → Nat → List Nat
  | 0, _ => []
  | k + 1, n => natToBytesBE k (n >>> 8) ++ [n % 256]

/-- A big-endian 32-bit word from a list of bytes. -/
def wordOfBytesBE (bs : List Nat) : Nat := bs.foldl (fun a b => a * 256 + b) 0

/-- SHA-256 padding: append `0x80`, zero bytes up to 56 mod 64, and the
bit length as 8 big-endian bytes. -/
def sha256Pad (msg : List Nat) : List Nat :=
  msg ++ [0x80] ++ List.replicate ((119 - msg.length % 64) % 64) 0
    ++ natToBytesBE 8 (8 * msg.length)

/-- Split into `n` chunks of 64 bytes. -/
def blocks64 : Nat → List Nat → List (List Nat)
  | 0, _ => []
  | n + 1, l => l.take 64 :: blocks64 n (l.drop 64)

/-- The first 16 words of a block's message schedule. -/
def blockWords (block : List Nat) : List Nat :=
  (List.range 16).map (fun j => wordOfBytesBE ((block.drop (4 * j)).take 4))

/-- Extend the message schedule by one word. -/
def scheduleStep (ws : List Nat) : List Nat :=
  ws ++ [(smallSigma1 (ws.getD (ws.length - 2) 0) + ws.getD (ws.length - 7) 0
          + smallSigma0 (ws.getD (ws.length - 15) 0) + ws.getD (ws.length - 16) 0) % w32]

/-- Extend the 16-word schedule to 64 words. -/
def schedule64 (ws : List Nat) : List Nat :=
  (List.range 48).foldl (fun acc _ => scheduleStep acc) ws

/-- The SHA-256 working variables `a` through `h`. -/
structure Sha256State where
  a : Nat
  b : Nat
  c : Nat
  d : Nat
  e : Nat
  f : Nat
  g : Nat
  h : Nat
deriving Repr, DecidableEq

/-- One SHA-256 compression round with round constant `k` and schedule
word `w`. -/
def sha256Round (st : Sha256State) (kw : Nat × Nat) : Sha256State :=
  let t1 := (st.h + bigSigma1 st.e + ch32 st.e st.f st.g + kw.1 + kw.2) % w32
  let t2 := (bigSigma0 st.a + maj32 st.a st.b st.c) % w32
  ⟨(t1 + t2) % w32, st.a, st.b, st.c, (st.d + t1) % w32, st.e, st.f, st.g⟩

/-- Process one 64-byte block, updating the 8-word hash value. -/
def sha256Block (hs : List Nat) (block : List Nat) : List Nat :=
  let ws := schedule64 (blockWords block)
  let st0 : Sha256State :=
    ⟨hs.getD 0 0, hs.getD 1 0, hs.getD 2 0, hs.getD 3 0,
     hs.getD 4 0, hs.getD 5 0, hs.getD 6 0, hs.getD 7 0⟩
  let st := (sha256K.zip ws).foldl sha256Round st0
  [(hs.getD 0 0 + st.a) % w32, (hs.getD 1 0 + st.b) % w32,
   (hs.getD 2 0 + st.c) % w32, (hs.getD 3 0 + st.d) % w32,
   (hs.getD 4 0 + st.e) % w32, (hs.getD 5 0 + st.f) % w32,
   (hs.getD 6 0 + st.g) % w32, (hs.getD 7 0 + st.h) % w32]

/-- SHA-256 of a byte list, as 32 digest bytes. -/
def sha256Bytes (msg : List Nat) : List Nat :=
  let padded := sha256Pad msg
  let hs := (blocks64 (padded.length / 64) padded).foldl sha256Block sha256H0
  (hs.map (natToBytesBE 4)).flatten

/-- Lowercase hex digit. -/
def hexDigit (n : Nat) : Char :=
  if n < 10 then Char.ofNat (48 + n) else Char.ofNat (87 + n)

/-- Lowercase hex rendering of a byte list (`hexdigest`). -/
def bytesToHex (bs : List Nat) : String :=
  String.mk ((bs.map (fun b => [hexDigit (b / 16), hexDigit (b % 16)])).flatten)

/-- UTF-8 encoding of one character. -/
def utf8EncodeChar (c : Char) : List Nat :=
  let n := c.toNat
  if n < 0x80 then [n]
  else if n < 0x800 then [0xc0 ||| (n >>> 6), 0x80 ||| (n &&& 0x3f)]
  else if n < 0x10000 then
    [0xe0 ||| (n >>> 12), 0x80 ||| ((n >>> 6) &&& 0x3f), 0x80 ||| (n &&& 0x3f)]
  else
    [0xf0 ||| (n >>> 18), 0x80 ||| ((n >>> 12) &&& 0x3f),
     0x80 ||| ((n >>> 6) &&& 0x3f), 0x80 ||| (n &&& 0x3f)]

/-- UTF-8 encoding of a string (Python's `str.encode("utf-8")`). -/
def utf8Encode (s : String) : List Nat := (s.data.map utf8EncodeChar).flatten

/-- HMAC-SHA256 digest bytes of `msg` under `key` (Python's
`hmac.new(key, msg, hashlib.sha256).digest()`). -/
def hmacSha256 (key msg : List Nat) : List Nat :=
  let key1 := if 64 < key.length then sha256Bytes key else key
  let key0 := key1 ++ List.replicate (64 - key1.length) 0
  let ipadded := key0.map (fun b => b ^^^ 0x36)
  let opadded := key0.map (fun b => b ^^^ 0x5c)
  sha256Bytes (opadded ++ sha256Bytes (ipadded ++ msg))

/-- `hmac.new(key, msg, hashlib.sha256).hexdigest()`. -/
def hmacSha256Hex (key msg : List Nat) : String := bytesToHex (hmacSha256 key msg)

/-- `GitHubService.verify_webhook_signature(payload, signature)`
(`app/services/github_service.py`, lines 26-38): compute
`"sha256=" + hmac.new(secret.encode("utf-8"), payload, sha256).hexdigest()`
and compare with `hmac.compare_digest`. The `try`/`except` wrapper returns
`False` on any exception, so the function is total; `compare_digest` on two
strings agrees with equality whenever it does not raise, and when it raises
(non-ASCII claimed signature) the claimed signature differs from the
all-ASCII expected one anyway, so the caught-exception `False` again agrees
with equality. -/
def verify_webhook_signature (webhook_secret : String) (payload : List Nat)
    (signature : String) : Bool :=
  let expected_signature := "sha256=" ++ hmacSha256Hex (utf8Encode webhook_secret) payload
  signature == expected_signature

/-! ## Webhook pull-request handling (`app/api/routes/webhooks.py`) -/

/-- A `Repository` row (`app/core/database.py`, class `Repository`); the
`is_active` column defaults to `True`. -/
structure Repo where
  github_id : Option Int
  name : String
  full_name : String
  owner : String
  url : Option String
  is_active : Bool
deriving Repr, DecidableEq

/-- The repository get-or-create step of `_handle_pull_request_event`
(`webhooks.py`, lines 82-96): query by `full_name`; if found, return the
existing row untouched; otherwise insert a new row (with the column default
`is_active = True`) and return it. The table is modelled as the list of its
rows in insertion order. -/
def getOrCreateRepository (db : List Repo) (github_id : Option Int)
    (name full_name owner : String) (url : Option String) : List Repo × Repo :=
  match db.find? (fun r => r.full_name == full_name) with
  | some r => (db, r)
  | none =>
      let r : Repo :=
        { github_id := github_id, name := name, full_name := full_name,
          owner := owner, url := url, is_active := true }
      (db ++ [r], r)

/-- The analysis-trigger condition of `_handle_pull_request_event`
(`webhooks.py`, line 131):
`action == "opened" or (action == "synchronize" and pr_data.get("draft") == False)`.
An absent `draft` key makes `pr_data.get("draft")` return `None`, and
`None == False` is `False` in Python, hence `draft == some false` on the
`Option Bool` model. -/
def shouldTriggerAnalysis (action : String) (draft : Option Bool) : Bool :=
  action == "opened" || (action == "synchronize" && draft == some false)

/-! ## Specification-side predicates and helper functions -/

/-- Progress order on observable session rows: both counters are no smaller. -/
def sessLe (a b : ReviewSession) : Prop :=
  a.processed_files ≤ b.processed_files ∧ a.total_issues ≤ b.total_issues

/-- Whether a file outcome takes the successful-analysis path (the only path
that reaches the progress update at reviews.py lines 300-303). -/
def FileOutcome.isOk : FileOutcome → Bool
  | FileOutcome.ok _ _ => true
  | _ => false

/-- The largest index `j` with `i ≤ j < i + len` whose outcome takes the
successful path, if any. The per-file loop leaves `processed_files` at
`j + 1` for this `j` (the progress update is skipped on the other paths). -/
def lastOkFrom (env : Env) : Nat → Nat → Option Nat
  | _, 0 => none
  | i, len + 1 =>
      match lastOkFrom env (i + 1) len with
      | some j => some j
      | none => if (env.outcome i).isOk then some i else none

/-- Invariant carried through the per-file loop when the next index to
process is `i`: the committed snapshots form a monotone chain ending in the
current session row, the counters are within bounds, and the session row's
issue counter never runs ahead of the local `total_issues` counter (it can
fall behind it, when a file fails mid-save after staging rows). -/
structure GoodLoop (i : Nat) (st : LoopState) : Prop where
  proc_le : st.session.processed_files ≤ i
  proc_total : st.session.processed_files ≤ st.session.total_files
  issues_le : st.session.total_issues ≤ st.total_issues
  last_snap : st.snaps.getLast? = some st.session
  chain : List.Chain' sessLe st.snaps
  bounds : ∀ s ∈ st.snaps,
    s.processed_files ≤ s.total_files ∧ s.total_files = st.session.total_files

/-! ## Concrete fixtures for witnesses and counterexamples -/

/-- A request over the given file list with fixed scalar fields. -/
def mkReq (files : List FileInfo) : ReviewRequest :=
  { repository_id := 1, pull_request_id := 2, owner := "octo", repo := "demo",
    pr_number := 7, pr_title := "Add feature", head_sha := "h1", base_sha := "b1",
    files := files }

/-- A first sample changed file. -/
def fileA : FileInfo := { path := "a.py", language := some "python", changed_lines := [] }

/-- A second sample changed file. -/
def fileB : FileInfo := { path := "b.py", language := some "python", changed_lines := [] }

/-- An AI analysis result with no findings. -/
def emptyAI : AIResult := { bugs := [], security_issues := [], quality_issues := [] }

/-- A static analysis result with no findings. -/
def emptyStatic : StaticResult :=
  { security_issues := [], quality_issues := [], dependency_issues := [] }

/-- A successful per-file outcome with no findings. -/
def okOutcome : FileOutcome := FileOutcome.ok emptyAI emptyStatic

/-- A bug issue whose collaborator-supplied confidence is out of range. -/
def bug150 : Issue :=
  { line := some 3, severity := some "high", title := some "Oops",
    description := some "d", suggestion := some "s", confidence := some 150,
    tool := none }

/-- An AI result carrying the out-of-range-confidence bug. -/
def aiWithBug150 : AIResult :=
  { bugs := [bug150], security_issues := [], quality_issues := [] }

/-- An AI result with two (well-formed) bugs. -/
def aiTwoBugs : AIResult :=
  { bugs := [{ line := some 1, severity := none, title := some "first",
               description := none, suggestion := none, confidence := none,
               tool := none },
             { line := some 2, severity := none, title := some "second",
               description := none, suggestion := none, confidence := none,
               tool := none }],
    security_issues := [], quality_issues := [] }

/-- Two files; the fetch of file 0 returns no content, file 1 analyzes
normally; the summary succeeds. -/
def envSkipFirst : Env :=
  { escape := none,
    outcome := fun i => if i = 0 then FileOutcome.fetchNone else okOutcome,
    summaryOutcome := Except.ok "summary text", now := 99 }

/-- Every fetch returns no content. -/
def envSkipAll : Env :=
  { escape := none, outcome := fun _ => FileOutcome.fetchNone,
    summaryOutcome := Except.ok "summary text", now := 99 }

/-- Every file analyzes normally with no findings; the summary succeeds. -/
def envAllOk : Env :=
  { escape := none, outcome := fun _ => okOutcome,
    summaryOutcome := Except.ok "summary text", now := 99 }

/-- The initial session query raises (or finds no row). -/
def envLoadFails : Env :=
  { escape := some (EscapeSite.sessionLoad "db connection lost"),
    outcome := fun _ => okOutcome,
    summaryOutcome := Except.ok "summary text", now := 99 }

/-- The claim commit raises a storage error. -/
def envClaimFails : Env :=
  { escape := some (EscapeSite.claimCommit "storage commit failed"),
    outcome := fun _ => okOutcome,
    summaryOutcome := Except.ok "summary text", now := 99 }

/-- The run proceeds normally but the completion commit raises. -/
def envCommitFails : Env :=
  { escape := some (EscapeSite.completionCommit "storage commit failed"),
    outcome := fun _ => okOutcome,
    summaryOutcome := Except.ok "summary text", now := 99 }

/-- Files analyze normally; summary generation raises. -/
def envSummaryFails : Env :=
  { escape := none, outcome := fun _ => okOutcome,
    summaryOutcome := Except.error "llm timeout", now := 99 }

/-- Every file yields the out-of-range-confidence bug; summary raises. -/
def envBug150 : Env :=
  { escape := none, outcome := fun _ => FileOutcome.ok aiWithBug150 emptyStatic,
    summaryOutcome := Except.error "llm timeout", now := 99 }

/-- Every file stages its two bug rows and then raises on a malformed entry
before reaching the progress update; summary generation raises. -/
def envMidSave : Env :=
  { escape := none,
    outcome := fun _ => FileOutcome.raiseMidSave aiTwoBugs emptyStatic 2 "malformed entry",
    summaryOutcome := Except.error "llm timeout", now := 99 }

/-! # Theorems -/

/-! ### Small facts about the orchestrator's building blocks -/

/-- A raising summary generation never yields a summary text, whatever the
`ai_result` variable holds. -/
theorem trySummary_error (la : Option AIResult) (e : String) :
    trySummary la (Except.error e) = none := by
  cases la <;> rfl

/-- A file whose content fetch returns nothing leaves the loop state — in
particular `processed_files` — unchanged (the `continue` at reviews.py line
227 runs before the progress update at line 301). -/
theorem processFile_fetchNone {req : ReviewRequest} {env : Env} {st : LoopState}
    {i : Nat} {fi : FileInfo} (h : env.outcome i = FileOutcome.fetchNone) :
    processFile req env st i fi = st := by
  simp [processFile, h]

/-- A file whose processing raises before `ai_result` is assigned leaves the
loop state unchanged. -/
theorem processFile_raiseBefore {req : ReviewRequest} {env : Env} {st : LoopState}
    {i : Nat} {fi : FileInfo} {msg : String}
    (h : env.outcome i = FileOutcome.raiseBefore msg) :
    processFile req env st i fi = st := by
  simp [processFile, h]

/-- A file whose processing raises after the AI call only updates the
`ai_result` variable. -/
theorem processFile_raiseAfterAi {req : ReviewRequest} {env : Env} {st : LoopState}
    {i : Nat} {fi : FileInfo} {ai : AIResult} {msg : String}
    (h : env.outcome i = FileOutcome.raiseAfterAi ai msg) :
    processFile req env st i fi = { st with lastAi := some ai } := by
  simp [processFile, h]

/-- A file that raises mid-save stages the first `k` rows and counts them in
the local counter, leaving the session row and the snapshots untouched. -/
theorem processFile_raiseMidSave {req : ReviewRequest} {env : Env} {st : LoopState}
    {i : Nat} {fi : FileInfo} {ai : AIResult} {stat : StaticResult} {k : Nat}
    {msg : String}
    (h : env.outcome i = FileOutcome.raiseMidSave ai stat k msg) :
    processFile req env st i fi =
      { session := st.session
        reviews := st.reviews ++ (fileRows req fi.path ai stat).take k
        total_issues := st.total_issues + ((fileRows req fi.path ai stat).take k).length
        lastAi := some ai
        snaps := st.snaps } := by
  simp [processFile, h]

/-! ### Sanity anchors for the embedded HMAC-SHA256

These pin the executable hash to the standard test vectors (FIPS 180-2 for
SHA-256; the classical quick-brown-fox HMAC vector), so the
`SignatureVerifier` theorem is about the real algorithm. -/

/-- SHA-256 of `"abc"` matches the FIPS 180-2 test vector. -/
theorem sha256_fips_vector :
    bytesToHex (sha256Bytes (utf8Encode "abc"))
      = "ba7816bf8f01cfea414140de5dae2223b00361a396177a9cb410ff61f20015ad" := by
  decide

/-- SHA-256 of the empty message matches the reference digest. -/
theorem sha256_empty_vector :
    bytesToHex (sha256Bytes [])
      = "e3b0c44298fc1c149afbf4c8996fb92427ae41e4649b934ca495991b7852b855" := by
  decide

set_option maxRecDepth 4096 in
/-- HMAC-SHA256 with key `"key"` over the quick-brown-fox message matches
the reference digest. -/
theorem hmacSha256_reference_vector :
    hmacSha256Hex (utf8Encode "key")
        (utf8Encode "The quick brown fox jumps over the lazy dog")
      = "f7bc83f430538424b13298e6aa6fb143ef4d59a14946175997479dbc2d1a3cd8" := by
  decide

/-! ### C6 — signature verification -/

/-- C6: `verify_webhook_signature` returns `true` exactly when the claimed
signature equals `"sha256=" ++ hex(HMAC-SHA256(secret, body))`; hence it
accepts the correctly computed signature, rejects every string that differs
from it anywhere (in particular in a single bit), and — being a total
function whose only comparison is an equality test — never throws: a
malformed or absent signature simply compares unequal and fails
verification. -/
theorem verify_signature_iff_expected (secret : String) (payload : List Nat)
    (signature : String) :
    verify_webhook_signature secret payload signature = true ↔
      signature = "sha256=" ++ hmacSha256Hex (utf8Encode secret) payload := by
  simp [verify_webhook_signature]

/-- C6 at a concrete input: the correctly computed signature for body
`"body"` under secret `"secret"` is accepted. -/
theorem verify_signature_iff_expected_w :
    verify_webhook_signature "secret" (utf8Encode "body")
      ("sha256=" ++ hmacSha256Hex (utf8Encode "secret") (utf8Encode "body")) = true :=
  (verify_signature_iff_expected "secret" (utf8Encode "body") _).mpr rfl

/-! ### C8 — draft-flag classification of pull_request events -/

/-- C8: for action `"synchronize"` the analysis trigger fires exactly for a
payload whose `draft` field is present and `False` (a draft — `draft = True`
— does not trigger; an absent `draft` key compares unequal to `False` in
Python and also does not trigger); for action `"opened"` the trigger always
fires. -/
theorem sync_draft_classification :
    shouldTriggerAnalysis "synchronize" (some false) = true ∧
    shouldTriggerAnalysis "synchronize" (some true) = false ∧
    shouldTriggerAnalysis "synchronize" none = false ∧
    ∀ d : Option Bool, shouldTriggerAnalysis "opened" d = true := by
  refine ⟨rfl, rfl, rfl, fun d => rfl⟩

/-! ### C7 — create-only repository upsert -/

/-- `find?` skips a prefix in which nothing matches. -/
theorem find?_append_none {α : Type} (p : α → Bool) {l1 : List α} (l2 : List α)
    (h : l1.find? p = none) : (l1 ++ l2).find? p = l2.find? p := by
  simp [List.find?_append, h]

/-- C7: processing the webhook repository get-or-create twice with the same
full name and different owners leaves the stored row exactly as the first
call created it: the second call changes nothing and resolves to the first
call's row, whose `owner` is the first owner and which was created with
`is_active = true`. -/
theorem repository_create_only (db : List Repo) (g1 g2 : Option Int)
    (n1 fullName o1 : String) (u1 : Option String) (n2 o2 : String)
    (u2 : Option String)
    (habs : db.find? (fun r => r.full_name == fullName) = none) :
    (getOrCreateRepository (getOrCreateRepository db g1 n1 fullName o1 u1).1
        g2 n2 fullName o2 u2).1
      = (getOrCreateRepository db g1 n1 fullName o1 u1).1 ∧
    (getOrCreateRepository (getOrCreateRepository db g1 n1 fullName o1 u1).1
        g2 n2 fullName o2 u2).2
      = (getOrCreateRepository db g1 n1 fullName o1 u1).2 ∧
    (getOrCreateRepository db g1 n1 fullName o1 u1).2.owner = o1 ∧
    (getOrCreateRepository db g1 n1 fullName o1 u1).2.is_active = true := by
  unfold getOrCreateRepository
  rw [habs]
  rw [find?_append_none _ _ habs]
  simp [List.find?]

/-- C7 at a concrete input: creating `octo/demo` for owner `"alice"` and
re-processing it for owner `"bob"` leaves the resolved owner `"alice"`. -/
theorem repository_create_only_w :
    (([] : List Repo).find? (fun r => r.full_name == "octo/demo") = none) ∧
    (getOrCreateRepository
        (getOrCreateRepository [] (some 10) "demo" "octo/demo" "alice" none).1
        (some 10) "demo" "octo/demo" "bob" none).2.owner = "alice" :=
  ⟨rfl, (repository_create_only [] (some 10) (some 10) "demo" "octo/demo" "alice"
    none "demo" "bob" none rfl).2.2.1⟩

/-! ### C3 — what escaping exceptions do to the session -/

/-- C3 (amended): the fate of the session under an exception that escapes
the per-file loop depends on the escape site. If the initial session query
fails, the outer `except` itself raises on the unbound `session` variable,
so the row stays `pending` with no error recorded and nothing committed. If
the claim commit fails with the session loaded, the session ends `failed`
with the exception's message stored and `completed_at` left unset. If the
completion commit fails, the session ends `failed` with the message stored
and `completed_at` set (it was stamped just before the failing commit). The
claimed combination — `failed`, `completed_at` set, message stored — holds
only in the completion-commit case. -/
theorem escaped_exception_outcomes (req : ReviewRequest) (env : Env)
    (sid msg : String) :
    (env.escape = some (EscapeSite.sessionLoad msg) →
      (runCodeAnalysis req env (initSession req sid)).session.status = "pending" ∧
      (runCodeAnalysis req env (initSession req sid)).session.error_message = none ∧
      (runCodeAnalysis req env (initSession req sid)).snaps = []) ∧
    (env.escape = some (EscapeSite.claimCommit msg) →
      (runCodeAnalysis req env (initSession req sid)).session.status = "failed" ∧
      (runCodeAnalysis req env (initSession req sid)).session.error_message = some msg ∧
      (runCodeAnalysis req env (initSession req sid)).session.completed_at = none ∧
      (runCodeAnalysis req env (initSession req sid)).session.processed_files = 0) ∧
    (env.escape = some (EscapeSite.completionCommit msg) →
      (runCodeAnalysis req env (initSession req sid)).session.status = "failed" ∧
      (runCodeAnalysis req env (initSession req sid)).session.error_message = some msg ∧
      (runCodeAnalysis req env (initSession req sid)).session.completed_at = some env.now) := by
  refine ⟨?_, ?_, ?_⟩
  · intro h
    simp [runCodeAnalysis, h, initSession]
  · intro h
    simp [runCodeAnalysis, h, initSession]
  · intro h
    simp [runCodeAnalysis, h]

/-- C3 witness: the three escape sites at concrete environments — a failing
session query leaves the row `pending`, a failing claim commit leaves
`completed_at` unset, a failing completion commit persists `completed_at`
alongside the failure. -/
theorem escaped_exception_outcomes_w :
    (runCodeAnalysis (mkReq [fileA]) envLoadFails
      (initSession (mkReq [fileA]) "s")).session.status = "pending" ∧
    (runCodeAnalysis (mkReq [fileA]) envClaimFails
      (initSession (mkReq [fileA]) "s")).session.completed_at = none ∧
    (runCodeAnalysis (mkReq [fileA]) envCommitFails
      (initSession (mkReq [fileA]) "s")).session.completed_at = some 99 :=
  ⟨((escaped_exception_outcomes (mkReq [fileA]) envLoadFails "s"
      "db connection lost").1 rfl).1,
   ((escaped_exception_outcomes (mkReq [fileA]) envClaimFails "s"
      "storage commit failed").2.1 rfl).2.2.1,
   ((escaped_exception_outcomes (mkReq [fileA]) envCommitFails "s"
      "storage commit failed").2.2 rfl).2.2⟩

/-- C3 counterexample to the claim as stated: in a run whose claim commit
raises, the session ends `failed` with the message stored, yet
`completed_at` is `none` — the completion timestamp is not set, contrary to
the claim. -/
theorem escaped_exception_no_completed_at_cex :
    (runCodeAnalysis (mkReq [fileA]) envClaimFails
      (initSession (mkReq [fileA]) "s")).session.status = "failed" ∧
    (runCodeAnalysis (mkReq [fileA]) envClaimFails
      (initSession (mkReq [fileA]) "s")).session.error_message
        = some "storage commit failed" ∧
    (runCodeAnalysis (mkReq [fileA]) envClaimFails
      (initSession (mkReq [fileA]) "s")).session.completed_at = none := by
  decide

/-! ### C9 — confidence defaults without clamping -/

/-- C9 (amended): a missing confidence defaults to the per-category baseline
(75 for AI bugs, 85 for AI security issues, 80 for static-tool security
findings), and a supplied confidence is stored unchanged — the orchestrator
performs no clamping, so out-of-range collaborator values are persisted as
given. -/
theorem confidence_default_no_clamp (req : ReviewRequest) (path : String)
    (b : Issue) (c : Int) :
    (aiBugRow req path { b with confidence := none }).ai_confidence = 75 ∧
    (aiSecurityRow req path { b with confidence := none }).ai_confidence = 85 ∧
    (staticSecurityRow req path { b with confidence := none }).ai_confidence = 80 ∧
    (aiBugRow req path { b with confidence := some c }).ai_confidence = c ∧
    (aiSecurityRow req path { b with confidence := some c }).ai_confidence = c ∧
    (staticSecurityRow req path { b with confidence := some c }).ai_confidence = c :=
  ⟨rfl, rfl, rfl, rfl, rfl, rfl⟩

/-- C9 counterexample to the claim as stated: a collaborator-supplied
confidence of 150 is persisted as 150 — outside `[0, 100]` — instead of
being clamped. -/
theorem confidence_not_clamped_cex :
    ((runCodeAnalysis (mkReq [fileA]) envBug150
      (initSession (mkReq [fileA]) "s")).reviews.map (fun r => r.ai_confidence))
      = [150] := by
  decide

/-! ### Exact progress of the per-file loop -/

/-- If the last index of the window takes the successful path, it is the
last successful index of the window. -/
theorem lastOkFrom_last_ok (env : Env) :
    ∀ (len i : Nat), (env.outcome (i + len)).isOk = true →
      lastOkFrom env i (len + 1) = some (i + len) := by
  intro len
  induction len with
  | zero =>
      intro i h
      rw [Nat.add_zero] at h
      simp [lastOkFrom, h]
  | succ m ih =>
      intro i h
      have h2 : lastOkFrom env (i + 1) (m + 1) = some ((i + 1) + m) :=
        ih (i + 1) (by rw [show (i + 1) + m = i + (m + 1) from by omega]; exact h)
      conv_lhs => rw [lastOkFrom]
      rw [h2]
      show some ((i + 1) + m) = some (i + (m + 1))
      congr 1
      omega

/-- If the last index of the window does not take the successful path, it
can be dropped from the window. -/
theorem lastOkFrom_last_not (env : Env) :
    ∀ (len i : Nat), (env.outcome (i + len)).isOk = false →
      lastOkFrom env i (len + 1) = lastOkFrom env i len := by
  intro len
  induction len with
  | zero =>
      intro i h
      rw [Nat.add_zero] at h
      simp [lastOkFrom, h]
  | succ m ih =>
      intro i h
      have h2 : lastOkFrom env (i + 1) (m + 1) = lastOkFrom env (i + 1) m :=
        ih (i + 1) (by rw [show (i + 1) + m = i + (m + 1) from by omega]; exact h)
      conv_lhs => rw [lastOkFrom]
      rw [h2]
      conv_rhs => rw [lastOkFrom]

/-- The `processed_files` counter after the loop over window `[i, i + len)`
is `j + 1` for the last index `j` of the window that took the successful
path, and is untouched when no index did: the progress update at
reviews.py lines 300-303 runs only on the successful path. -/
theorem processFiles_processed (req : ReviewRequest) (env : Env)
    (l : List FileInfo) :
    ∀ (i : Nat) (st : LoopState),
      (processFiles req env i l st).session.processed_files =
        (match lastOkFrom env i l.length with
         | some j => j + 1
         | none => st.session.processed_files) := by
  induction l with
  | nil => intro i st; rfl
  | cons fi rest ih =>
      intro i st
      show (processFiles req env (i + 1) rest (processFile req env st i fi)).session.processed_files = _
      rw [ih (i + 1) (processFile req env st i fi)]
      cases h : env.outcome i with
      | fetchNone =>
          rw [processFile_fetchNone h]
          simp only [List.length_cons, lastOkFrom, h, FileOutcome.isOk]
          cases htail : lastOkFrom env (i + 1) rest.length <;> simp
      | raiseBefore m =>
          rw [processFile_raiseBefore h]
          simp only [List.length_cons, lastOkFrom, h, FileOutcome.isOk]
          cases htail : lastOkFrom env (i + 1) rest.length <;> simp
      | raiseAfterAi ai m =>
          simp only [List.length_cons, lastOkFrom, h, FileOutcome.isOk]
          cases htail : lastOkFrom env (i + 1) rest.length <;>
            simp [processFile, h]
      | raiseMidSave ai stat k m =>
          simp only [List.length_cons, lastOkFrom, h, FileOutcome.isOk]
          cases htail : lastOkFrom env (i + 1) rest.length <;>
            simp [processFile, h]
      | ok ai stat =>
          simp only [List.length_cons, lastOkFrom, h, FileOutcome.isOk]
          cases htail : lastOkFrom env (i + 1) rest.length <;>
            simp [processFile, h]

/-! ### What the per-file loop persists -/

/-- Every row persisted for one file is a `bug` or a `security` row: the
loop reads only `ai_result["bugs"]`, `ai_result["security_issues"]` and
`static_result["security_issues"]`. -/
theorem fileRows_types (req : ReviewRequest) (path : String) (ai : AIResult)
    (stat : StaticResult) :
    ∀ r ∈ fileRows req path ai stat,
      r.review_type = "bug" ∨ r.review_type = "security" := by
  intro r hr
  simp only [fileRows, List.mem_append, List.mem_map] at hr
  rcases hr with (⟨b, _, rfl⟩ | ⟨s, _, rfl⟩) | ⟨s, _, rfl⟩
  · exact Or.inl rfl
  · exact Or.inr rfl
  · exact Or.inr rfl

/-- The loop keeps the local `total_issues` counter equal to the number of
rows staged so far; the session row's counter never runs ahead of the local
one (it falls behind when a file fails mid-save, since the assignment at
reviews.py line 302 is skipped); and only `bug` and `security` rows are
staged. -/
theorem processFiles_reviews (req : ReviewRequest) (env : Env)
    (l : List FileInfo) :
    ∀ (i : Nat) (st : LoopState),
      st.total_issues = st.reviews.length →
      st.session.total_issues ≤ st.total_issues →
      (∀ r ∈ st.reviews, r.review_type = "bug" ∨ r.review_type = "security") →
      (processFiles req env i l st).total_issues
          = (processFiles req env i l st).reviews.length ∧
      (processFiles req env i l st).session.total_issues
          ≤ (processFiles req env i l st).total_issues ∧
      (∀ r ∈ (processFiles req env i l st).reviews,
        r.review_type = "bug" ∨ r.review_type = "security") := by
  induction l with
  | nil => intro i st h1 h2 h3; exact ⟨h1, h2, h3⟩
  | cons fi rest ih =>
      intro i st h1 h2 h3
      show (processFiles req env (i + 1) rest (processFile req env st i fi)).total_issues = _ ∧ _ ∧ _
      refine ih (i + 1) (processFile req env st i fi) ?_ ?_ ?_
      · cases h : env.outcome i <;> simp [processFile, h, h1]
      · cases h : env.outcome i <;> simp [processFile, h] <;> omega
      · intro r hr
        cases h : env.outcome i with
        | fetchNone => rw [processFile_fetchNone h] at hr; exact h3 r hr
        | raiseBefore m => rw [processFile_raiseBefore h] at hr; exact h3 r hr
        | raiseAfterAi ai m =>
            simp only [processFile, h] at hr
            exact h3 r hr
        | raiseMidSave ai stat k m =>
            simp only [processFile, h, List.mem_append] at hr
            rcases hr with hr | hr
            · exact h3 r hr
            · exact fileRows_types req fi.path ai stat r (List.take_subset _ _ hr)
        | ok ai stat =>
            simp only [processFile, h, List.mem_append] at hr
            rcases hr with hr | hr
            · exact h3 r hr
            · exact fileRows_types req fi.path ai stat r hr

/-- When no file fails mid-save over the window, the session row's issue
counter ends equal to the local counter (the two are resynchronized by every
successful file and touched by nothing else). -/
theorem processFiles_sync (req : ReviewRequest) (env : Env)
    (l : List FileInfo) :
    ∀ (i : Nat) (st : LoopState),
      (∀ j, i ≤ j → j < i + l.length → (env.outcome j).isPartialSave = false) →
      st.session.total_issues = st.total_issues →
      (processFiles req env i l st).session.total_issues
        = (processFiles req env i l st).total_issues := by
  induction l with
  | nil => intro i st _ h2; exact h2
  | cons fi rest ih =>
      intro i st hnp h2
      show (processFiles req env (i + 1) rest (processFile req env st i fi)).session.total_issues = _
      refine ih (i + 1) (processFile req env st i fi) ?_ ?_
      · intro j hj1 hj2
        refine hnp j (by omega) (by simp only [List.length_cons]; omega)
      · have hi := hnp i (le_refl i) (by simp)
        cases h : env.outcome i with
        | fetchNone => rw [processFile_fetchNone h]; exact h2
        | raiseBefore m => rw [processFile_raiseBefore h]; exact h2
        | raiseAfterAi ai m => simpa [processFile, h] using h2
        | raiseMidSave ai stat k m =>
            rw [h] at hi
            simp [FileOutcome.isPartialSave] at hi
        | ok ai stat => simp [processFile, h]

/-! ### The loop invariant behind the monotone, bounded counters -/

/-- One loop iteration preserves the invariant, does not change
`total_files`, only moves the session forward in the progress order, and
only appends to the committed snapshots. -/
theorem processFile_good (req : ReviewRequest) (env : Env) (st : LoopState)
    (i : Nat) (fi : FileInfo) (hg : GoodLoop i st)
    (hlt : i < st.session.total_files) :
    GoodLoop (i + 1) (processFile req env st i fi) ∧
    (processFile req env st i fi).session.total_files = st.session.total_files ∧
    sessLe st.session (processFile req env st i fi).session ∧
    ∃ ex, (processFile req env st i fi).snaps = st.snaps ++ ex := by
  cases h : env.outcome i with
  | fetchNone =>
      rw [processFile_fetchNone h]
      exact ⟨⟨hg.proc_le.trans (Nat.le_succ i), hg.proc_total, hg.issues_le, hg.last_snap,
        hg.chain, hg.bounds⟩, rfl, ⟨le_refl _, le_refl _⟩, [], by simp⟩
  | raiseBefore m =>
      rw [processFile_raiseBefore h]
      exact ⟨⟨hg.proc_le.trans (Nat.le_succ i), hg.proc_total, hg.issues_le, hg.last_snap,
        hg.chain, hg.bounds⟩, rfl, ⟨le_refl _, le_refl _⟩, [], by simp⟩
  | raiseAfterAi ai m =>
      rw [processFile_raiseAfterAi h]
      exact ⟨⟨hg.proc_le.trans (Nat.le_succ i), hg.proc_total, hg.issues_le, hg.last_snap,
        hg.chain, hg.bounds⟩, rfl, ⟨le_refl _, le_refl _⟩, [], by simp⟩
  | raiseMidSave ai stat k m =>
      rw [processFile_raiseMidSave h]
      exact ⟨⟨hg.proc_le.trans (Nat.le_succ i), hg.proc_total,
        hg.issues_le.trans (Nat.le_add_right _ _), hg.last_snap,
        hg.chain, hg.bounds⟩, rfl, ⟨le_refl _, le_refl _⟩, [], by simp⟩
  | ok ai stat =>
      have hmono : sessLe st.session
          { st.session with
              processed_files := i + 1
              total_issues := st.total_issues + (fileRows req fi.path ai stat).length } := by
        exact ⟨hg.proc_le.trans (Nat.le_succ i),
          hg.issues_le.trans (Nat.le_add_right _ _)⟩
      refine ⟨⟨?_, ?_, ?_, ?_, ?_, ?_⟩, ?_, ?_, ?_⟩
      · simp [processFile, h]
      · simp only [processFile, h]
        exact hlt
      · simp [processFile, h]
      · simp only [processFile, h]
        exact List.getLast?_concat _
      · simp only [processFile, h]
        refine List.chain'_append.mpr ⟨hg.chain, List.chain'_singleton _, ?_⟩
        intro x hx y hy
        rw [hg.last_snap] at hx
        simp only [Option.mem_def, Option.some.injEq] at hx
        simp only [List.head?_cons, Option.mem_def, Option.some.injEq] at hy
        subst hx
        subst hy
        exact hmono
      · simp only [processFile, h]
        intro s hs
        rcases List.mem_append.mp hs with hs | hs
        · exact hg.bounds s hs
        · simp only [List.mem_singleton] at hs
          subst hs
          exact ⟨hlt, rfl⟩
      · simp [processFile, h]
      · simp only [processFile, h]
        exact hmono
      · simp only [processFile, h]
        exact ⟨_, rfl⟩

/-- The loop over window `[i, i + len)` preserves the invariant, keeps
`total_files` fixed, moves the session monotonically forward, and extends
the committed snapshots only at the end. -/
theorem processFiles_good (req : ReviewRequest) (env : Env)
    (l : List FileInfo) :
    ∀ (i : Nat) (st : LoopState), GoodLoop i st →
      i + l.length ≤ st.session.total_files →
      GoodLoop (i + l.length) (processFiles req env i l st) ∧
      (processFiles req env i l st).session.total_files = st.session.total_files ∧
      sessLe st.session (processFiles req env i l st).session ∧
      ∃ ex, (processFiles req env i l st).snaps = st.snaps ++ ex := by
  induction l with
  | nil =>
      intro i st hg _
      exact ⟨hg, rfl, ⟨le_refl _, le_refl _⟩, [], by simp [processFiles]⟩
  | cons fi rest ih =>
      intro i st hg hle
      have hlt : i < st.session.total_files := by
        simp only [List.length_cons] at hle
        omega
      obtain ⟨hg1, htot1, hmono1, ex1, hex1⟩ := processFile_good req env st i fi hg hlt
      have hle1 : (i + 1) + rest.length ≤ (processFile req env st i fi).session.total_files := by
        rw [htot1]
        simp only [List.length_cons] at hle
        omega
      obtain ⟨hg2, htot2, hmono2, ex2, hex2⟩ :=
        ih (i + 1) (processFile req env st i fi) hg1 hle1
      refine ⟨?_, ?_, ?_, ?_⟩
      · show GoodLoop (i + (rest.length + 1)) (processFiles req env (i + 1) rest (processFile req env st i fi))
        rw [show i + (rest.length + 1) = (i + 1) + rest.length from by omega]
        exact hg2
      · show (processFiles req env (i + 1) rest (processFile req env st i fi)).session.total_files = _
        rw [htot2, htot1]
      · exact ⟨hmono1.1.trans hmono2.1, hmono1.2.trans hmono2.2⟩
      · refine ⟨ex1 ++ ex2, ?_⟩
        show (processFiles req env (i + 1) rest (processFile req env st i fi)).snaps = _
        rw [hex2, hex1, List.append_assoc]

/-- On a run with no escaping exception, `runCodeAnalysis` is the
completion transition applied to the loop's result from `initLoopState`. -/
theorem runCodeAnalysis_eq (req : ReviewRequest) (env : Env)
    (init : ReviewSession) (hclaim : env.escape = none) :
    runCodeAnalysis req env init =
      { session :=
          { (processFiles req env 0 req.files (initLoopState init)).session with
              status := "completed"
              completed_at := some env.now }
        reviews :=
          (match trySummary (processFiles req env 0 req.files (initLoopState init)).lastAi
              env.summaryOutcome with
           | some text =>
              (processFiles req env 0 req.files (initLoopState init)).reviews
                ++ [summaryRow req text]
           | none => (processFiles req env 0 req.files (initLoopState init)).reviews)
        snaps :=
          (processFiles req env 0 req.files (initLoopState init)).snaps
            ++ [{ (processFiles req env 0 req.files (initLoopState init)).session with
                    status := "completed"
                    completed_at := some env.now }] } := by
  unfold runCodeAnalysis
  rw [hclaim]
  rfl

/-- On a run whose completion commit raises, `runCodeAnalysis` is the
failure transition — with `completed_at` already stamped — applied to the
loop's result from `initLoopState`. -/
theorem runCodeAnalysis_eq_commitFail (req : ReviewRequest) (env : Env)
    (init : ReviewSession) (msg : String)
    (h : env.escape = some (EscapeSite.completionCommit msg)) :
    runCodeAnalysis req env init =
      { session :=
          { (processFiles req env 0 req.files (initLoopState init)).session with
              status := "failed"
              completed_at := some env.now
              error_message := some msg }
        reviews :=
          (match trySummary (processFiles req env 0 req.files (initLoopState init)).lastAi
              env.summaryOutcome with
           | some text =>
              (processFiles req env 0 req.files (initLoopState init)).reviews
                ++ [summaryRow req text]
           | none => (processFiles req env 0 req.files (initLoopState init)).reviews)
        snaps :=
          (processFiles req env 0 req.files (initLoopState init)).snaps
            ++ [{ (processFiles req env 0 req.files (initLoopState init)).session with
                    status := "failed"
                    completed_at := some env.now
                    error_message := some msg }] } := by
  unfold runCodeAnalysis
  rw [h]
  rfl

/-! ### C1 — one failing fetch in a run -/

/-- C1 (amended): in a run where exactly one file `k`'s content fetch
returns nothing and every other file processes successfully, the session
reaches the terminal state `completed` with the completion timestamp set;
but a skipped file does not advance `processed_files` (its `continue` runs
before the progress update), so each successful file `i` sets the counter to
`i + 1`, and the final counter is `N` when the failing file is not the last
and `N - 1` when it is. -/
theorem skip_does_not_advance_counter (req : ReviewRequest) (env : Env)
    (sid : String) (k : Nat)
    (hclaim : env.escape = none)
    (hk : k < req.files.length)
    (hfail : env.outcome k = FileOutcome.fetchNone)
    (hok : ∀ i, i < req.files.length → i ≠ k → (env.outcome i).isOk = true) :
    (runCodeAnalysis req env (initSession req sid)).session.status = "completed" ∧
    (runCodeAnalysis req env (initSession req sid)).session.completed_at = some env.now ∧
    (runCodeAnalysis req env (initSession req sid)).session.processed_files =
      (if k + 1 = req.files.length then req.files.length - 1
       else req.files.length) ∧
    ∀ fi st, processFile req env st k fi = st := by
  rw [runCodeAnalysis_eq req env (initSession req sid) hclaim]
  refine ⟨rfl, rfl, ?_, fun fi st => processFile_fetchNone hfail⟩
  show (processFiles req env 0 req.files (initLoopState (initSession req sid))).session.processed_files = _
  rw [processFiles_processed]
  have hzero : (initLoopState (initSession req sid)).session.processed_files = 0 := rfl
  rw [hzero]
  by_cases hke : k + 1 = req.files.length
  · have hnotok : (env.outcome (0 + (req.files.length - 1))).isOk = false := by
      rw [show 0 + (req.files.length - 1) = k from by omega, hfail]
      rfl
    have h1 : lastOkFrom env 0 req.files.length = lastOkFrom env 0 (req.files.length - 1) := by
      have h2 := lastOkFrom_last_not env (req.files.length - 1) 0 hnotok
      rwa [show req.files.length - 1 + 1 = req.files.length from by omega] at h2
    rcases Nat.lt_or_ge 1 req.files.length with hN2 | hN1
    · have hok2 : (env.outcome (0 + (req.files.length - 2))).isOk = true := by
        apply hok
        · omega
        · omega
      have h3 := lastOkFrom_last_ok env (req.files.length - 2) 0 hok2
      rw [show req.files.length - 2 + 1 = req.files.length - 1 from by omega] at h3
      rw [h1, h3]
      show 0 + (req.files.length - 2) + 1 = _
      rw [if_pos hke]
      omega
    · have hN : req.files.length = 1 := by omega
      rw [h1, hN]
      show (0 : Nat) = _
      rw [if_pos (by omega)]
  · have hok1 : (env.outcome (0 + (req.files.length - 1))).isOk = true := by
      apply hok
      · omega
      · omega
    have h3 := lastOkFrom_last_ok env (req.files.length - 1) 0 hok1
    rw [show req.files.length - 1 + 1 = req.files.length from by omega] at h3
    rw [h3]
    show 0 + (req.files.length - 1) + 1 = _
    rw [if_neg hke]
    omega

/-- C1 witness: two files, the first fetch fails, the second succeeds — the
run completes with `processed_files = 2`. -/
theorem skip_does_not_advance_counter_w :
    envSkipFirst.outcome 0 = FileOutcome.fetchNone ∧
    (runCodeAnalysis (mkReq [fileA, fileB]) envSkipFirst
      (initSession (mkReq [fileA, fileB]) "s")).session.processed_files = 2 :=
  ⟨rfl, ((skip_does_not_advance_counter (mkReq [fileA, fileB]) envSkipFirst "s" 0
    rfl (by decide) rfl (by decide)).2.2.1).trans (by decide)⟩

/-- C1 counterexample to the claim as stated: with one file whose fetch
fails, the run ends `completed` but `processed_files` stays `0`, not `N = 1`
— the skipped file did not advance the counter. -/
theorem fetch_fail_processed_cex :
    (mkReq [fileA]).files.length = 1 ∧
    (runCodeAnalysis (mkReq [fileA]) envSkipAll
      (initSession (mkReq [fileA]) "s")).session.status = "completed" ∧
    (runCodeAnalysis (mkReq [fileA]) envSkipAll
      (initSession (mkReq [fileA]) "s")).session.processed_files = 0 := by
  decide

/-! ### C2 — bounded, monotone counters at every observation point -/

/-- Any final transition that preserves the loop result's counters and
`total_files` yields a bounded, monotone observable trace. Both the
completion transition and the failing-completion-commit transition are of
this shape. -/
theorem trace_good_of_loop (req : ReviewRequest) (env : Env) (sid : String)
    (sF : ReviewSession)
    (hp : sF.processed_files = (processFiles req env 0 req.files
      (initLoopState (initSession req sid))).session.processed_files)
    (hi : sF.total_issues = (processFiles req env 0 req.files
      (initLoopState (initSession req sid))).session.total_issues)
    (ht : sF.total_files = (processFiles req env 0 req.files
      (initLoopState (initSession req sid))).session.total_files) :
    (∀ s ∈ initSession req sid ::
        ((processFiles req env 0 req.files (initLoopState (initSession req sid))).snaps
          ++ [sF]),
      s.processed_files ≤ s.total_files ∧ s.total_files = req.files.length) ∧
    List.Chain' sessLe (initSession req sid ::
        ((processFiles req env 0 req.files (initLoopState (initSession req sid))).snaps
          ++ [sF])) := by
  have hg0 : GoodLoop 0 (initLoopState (initSession req sid)) := by
    refine ⟨Nat.le_refl _, Nat.zero_le _, Nat.le_refl _, rfl, List.chain'_singleton _, ?_⟩
    intro s hs
    simp only [initLoopState, List.mem_singleton] at hs
    subst hs
    exact ⟨Nat.zero_le _, rfl⟩
  have hlen : 0 + req.files.length
      ≤ (initLoopState (initSession req sid)).session.total_files := by
    simp [initLoopState, initSession]
  obtain ⟨hg, htot, hmono, ex, hex⟩ :=
    processFiles_good req env req.files 0 (initLoopState (initSession req sid)) hg0 hlen
  have htotN : (processFiles req env 0 req.files
      (initLoopState (initSession req sid))).session.total_files
      = req.files.length := by
    rw [htot]
    rfl
  refine ⟨?_, ?_⟩
  · intro s hs
    simp only [List.mem_cons] at hs
    rcases hs with rfl | hs
    · exact ⟨Nat.zero_le _, rfl⟩
    · rcases List.mem_append.mp hs with hs | hs
      · have hb := hg.bounds s hs
        exact ⟨hb.1, hb.2.trans htotN⟩
      · simp only [List.mem_singleton] at hs
        subst hs
        rw [hp, ht]
        exact ⟨hg.proc_total, htotN⟩
  · refine List.chain'_cons'.mpr ⟨?_, ?_⟩
    · intro y hy
      rw [hex] at hy
      simp only [initLoopState, List.cons_append, List.nil_append,
        List.head?_cons, Option.mem_def, Option.some.injEq] at hy
      subst hy
      exact ⟨le_refl _, le_refl _⟩
    · refine List.chain'_append.mpr ⟨hg.chain, List.chain'_singleton _, ?_⟩
      intro x hx y hy
      rw [hg.last_snap] at hx
      simp only [Option.mem_def, Option.some.injEq] at hx
      simp only [List.head?_cons, Option.mem_def, Option.some.injEq] at hy
      subst hx
      subst hy
      exact ⟨Nat.le_of_eq hp.symm, Nat.le_of_eq hi.symm⟩

/-- C2: at every observation point of a run — the row created by
`analyze_pull_request` followed by every state committed by the
orchestrator — `processed_files` never exceeds `total_files`,
`total_files` is fixed at creation to the length of the request's file
list, and both `processed_files` and `total_issues` are monotonically
non-decreasing along the run. This holds on every escape path, including a
failing completion commit. -/
theorem counters_bounded_monotone (req : ReviewRequest) (env : Env) (sid : String) :
    (∀ s ∈ runTrace req env sid,
      s.processed_files ≤ s.total_files ∧ s.total_files = req.files.length) ∧
    List.Chain' sessLe (runTrace req env sid) := by
  cases hc : env.escape with
  | none =>
      unfold runTrace
      rw [runCodeAnalysis_eq req env (initSession req sid) hc]
      exact trace_good_of_loop req env sid _ rfl rfl rfl
  | some site =>
      cases site with
      | sessionLoad msg =>
          unfold runTrace runCodeAnalysis
          rw [hc]
          refine ⟨?_, List.chain'_singleton _⟩
          intro s hs
          simp only [List.mem_cons, List.not_mem_nil, or_false] at hs
          subst hs
          exact ⟨Nat.zero_le _, rfl⟩
      | claimCommit msg =>
          unfold runTrace runCodeAnalysis
          rw [hc]
          refine ⟨?_, ?_⟩
          · intro s hs
            simp only [List.mem_cons, List.mem_singleton, List.not_mem_nil, or_false] at hs
            rcases hs with rfl | rfl
            · exact ⟨Nat.zero_le _, rfl⟩
            · exact ⟨Nat.zero_le _, rfl⟩
          · exact List.chain'_cons.mpr ⟨⟨le_refl _, le_refl _⟩, List.chain'_singleton _⟩
      | completionCommit msg =>
          unfold runTrace
          rw [runCodeAnalysis_eq_commitFail req env (initSession req sid) msg hc]
          exact trace_good_of_loop req env sid _ rfl rfl rfl

/-- C2 witness: the theorem applied to a concrete one-file all-ok run. -/
theorem counters_bounded_monotone_w :
    ((initSession (mkReq [fileA]) "s").processed_files
        ≤ (initSession (mkReq [fileA]) "s").total_files) ∧
    List.Chain' sessLe (runTrace (mkReq [fileA]) envAllOk "s") :=
  ⟨((counters_bounded_monotone (mkReq [fileA]) envAllOk "s").1
      (initSession (mkReq [fileA]) "s") (List.mem_cons_self _ _)).1,
    (counters_bounded_monotone (mkReq [fileA]) envAllOk "s").2⟩

/-! ### C4 — summary failure is non-fatal -/

/-- C4: when the per-file loop raises no escaping exception and summary
generation fails, the session still ends `completed` with `completed_at`
set, and no summary row is persisted (the loop itself persists only `bug`
and `security` rows). -/
theorem summary_failure_still_completes (req : ReviewRequest) (env : Env)
    (sid e : String) (hclaim : env.escape = none)
    (hsum : env.summaryOutcome = Except.error e) :
    (runCodeAnalysis req env (initSession req sid)).session.status = "completed" ∧
    (runCodeAnalysis req env (initSession req sid)).session.completed_at = some env.now ∧
    ∀ r ∈ (runCodeAnalysis req env (initSession req sid)).reviews,
      r.review_type ≠ "summary" := by
  rw [runCodeAnalysis_eq req env (initSession req sid) hclaim]
  refine ⟨rfl, rfl, ?_⟩
  intro r hr
  simp only [hsum, trySummary_error] at hr
  have h := processFiles_reviews req env req.files 0 (initLoopState (initSession req sid))
    rfl (Nat.le_refl _) (by intro x hx; simp [initLoopState] at hx)
  rcases h.2.2 r hr with h1 | h1 <;> simp [h1]

/-- C4 witness: a concrete run whose summary generation raises still
completes. -/
theorem summary_failure_still_completes_w :
    envSummaryFails.escape = none ∧
    envSummaryFails.summaryOutcome = Except.error "llm timeout" ∧
    (runCodeAnalysis (mkReq [fileA]) envSummaryFails
      (initSession (mkReq [fileA]) "s")).session.status = "completed" :=
  ⟨rfl, rfl, (summary_failure_still_completes (mkReq [fileA]) envSummaryFails "s"
    "llm timeout" rfl rfl).1⟩

/-! ### C5 — `total_issues` versus persisted rows -/

/-- The non-summary rows of a finished run are exactly the loop's staged
rows, and their number is the loop's local counter. -/
theorem loopReviews_filter (req : ReviewRequest) (env : Env) (sid : String) :
    ((match trySummary (processFiles req env 0 req.files
        (initLoopState (initSession req sid))).lastAi env.summaryOutcome with
      | some text => (processFiles req env 0 req.files
          (initLoopState (initSession req sid))).reviews ++ [summaryRow req text]
      | none => (processFiles req env 0 req.files
          (initLoopState (initSession req sid))).reviews).filter
        (fun r : CodeReview => !(r.review_type == "summary"))).length
      = (processFiles req env 0 req.files (initLoopState (initSession req sid))).total_issues := by
  have h := processFiles_reviews req env req.files 0 (initLoopState (initSession req sid))
    rfl (Nat.le_refl _) (by intro x hx; simp [initLoopState] at hx)
  have hfilter : (processFiles req env 0 req.files
        (initLoopState (initSession req sid))).reviews.filter
        (fun r => !(r.review_type == "summary"))
      = (processFiles req env 0 req.files (initLoopState (initSession req sid))).reviews :=
    List.filter_eq_self.mpr (by
      intro r hr
      rcases h.2.2 r hr with h1 | h1 <;> simp [h1])
  cases hts : trySummary (processFiles req env 0 req.files
      (initLoopState (initSession req sid))).lastAi env.summaryOutcome with
  | none =>
      simp only [hts]
      rw [hfilter, h.1]
  | some text =>
      simp only [hts]
      rw [List.filter_append, hfilter]
      have hsumrow : ([summaryRow req text]).filter
          (fun r => !(r.review_type == "summary")) = [] := by
        simp [summaryRow]
      rw [hsumrow, List.append_nil, h.1]

/-- C5 (amended): after the orchestrator terminates, the session's
`total_issues` counts the persisted non-summary Finding rows only up to the
last successful per-file progress update: it never exceeds the number of
persisted non-summary rows (the summary row is never counted), and it
equals that number whenever no per-file exception interrupts row
persistence mid-file in a normally terminating run. It falls strictly
behind when a file fails after staging rows: those rows are committed by a
later commit while the assignment at reviews.py line 302 is skipped. -/
theorem total_issues_vs_rows (req : ReviewRequest) (env : Env) (sid : String) :
    ((runCodeAnalysis req env (initSession req sid)).session.total_issues ≤
      ((runCodeAnalysis req env (initSession req sid)).reviews.filter
        (fun r => !(r.review_type == "summary"))).length) ∧
    ((env.escape = none ∧
        ∀ i, i < req.files.length → (env.outcome i).isPartialSave = false) →
      (runCodeAnalysis req env (initSession req sid)).session.total_issues =
        ((runCodeAnalysis req env (initSession req sid)).reviews.filter
          (fun r => !(r.review_type == "summary"))).length) := by
  constructor
  · cases hc : env.escape with
    | none =>
        rw [runCodeAnalysis_eq req env (initSession req sid) hc]
        exact le_of_le_of_eq
          (processFiles_reviews req env req.files 0 (initLoopState (initSession req sid))
            rfl (Nat.le_refl _) (by intro x hx; simp [initLoopState] at hx)).2.1
          (loopReviews_filter req env sid).symm
    | some site =>
        cases site with
        | sessionLoad msg =>
            unfold runCodeAnalysis
            rw [hc]
            exact Nat.zero_le _
        | claimCommit msg =>
            unfold runCodeAnalysis
            rw [hc]
            exact Nat.zero_le _
        | completionCommit msg =>
            rw [runCodeAnalysis_eq_commitFail req env (initSession req sid) msg hc]
            exact le_of_le_of_eq
              (processFiles_reviews req env req.files 0 (initLoopState (initSession req sid))
                rfl (Nat.le_refl _) (by intro x hx; simp [initLoopState] at hx)).2.1
              (loopReviews_filter req env sid).symm
  · rintro ⟨hc, hnp⟩
    rw [runCodeAnalysis_eq req env (initSession req sid) hc]
    refine Eq.trans ?_ (loopReviews_filter req env sid).symm
    refine processFiles_sync req env req.files 0 (initLoopState (initSession req sid)) ?_ rfl
    intro j _ hj2
    exact hnp j (by omega)

/-- C5 witness: with no mid-save failure the equality holds (a concrete
one-file all-ok run: zero counted, zero non-summary rows), and on a run
whose single file stages two rows and then fails mid-save the inequality
from the theorem is strict (`total_issues = 0` against two persisted
rows). -/
theorem total_issues_vs_rows_w :
    ((runCodeAnalysis (mkReq [fileA]) envAllOk
        (initSession (mkReq [fileA]) "s")).session.total_issues =
      ((runCodeAnalysis (mkReq [fileA]) envAllOk
        (initSession (mkReq [fileA]) "s")).reviews.filter
          (fun r => !(r.review_type == "summary"))).length) ∧
    ((runCodeAnalysis (mkReq [fileA]) envMidSave
        (initSession (mkReq [fileA]) "s")).session.total_issues ≤
      ((runCodeAnalysis (mkReq [fileA]) envMidSave
        (initSession (mkReq [fileA]) "s")).reviews.filter
          (fun r => !(r.review_type == "summary"))).length) ∧
    (runCodeAnalysis (mkReq [fileA]) envMidSave
        (initSession (mkReq [fileA]) "s")).session.total_issues = 0 ∧
    (runCodeAnalysis (mkReq [fileA]) envMidSave
        (initSession (mkReq [fileA]) "s")).reviews.length = 2 :=
  ⟨(total_issues_vs_rows (mkReq [fileA]) envAllOk "s").2 ⟨rfl, by decide⟩,
   (total_issues_vs_rows (mkReq [fileA]) envMidSave "s").1,
   by decide, by decide⟩

/-- C5 counterexample to the claim as stated: a one-file run with no
findings and a successful summary persists exactly one row (the summary)
while `total_issues` stays `0` — the count including the summary row does
not match. -/
theorem total_issues_excludes_summary_cex :
    (runCodeAnalysis (mkReq [fileA]) envAllOk
      (initSession (mkReq [fileA]) "s")).session.total_issues = 0 ∧
    (runCodeAnalysis (mkReq [fileA]) envAllOk
      (initSession (mkReq [fileA]) "s")).reviews.length = 1 := by
  decide

/-! ### C10 — only bug, security and summary rows are persisted -/

/-- C10: every Finding row persisted by a run has `review_type` `"bug"`,
`"security"` or `"summary"`; the quality issues of the AI analyzer and the
quality and dependency issues of the static analyzer are never persisted. -/
theorem persisted_row_types (req : ReviewRequest) (env : Env) (sid : String) :
    ∀ r ∈ (runCodeAnalysis req env (initSession req sid)).reviews,
      r.review_type = "bug" ∨ r.review_type = "security" ∨ r.review_type = "summary" := by
  have hmain : ∀ r ∈ (match trySummary (processFiles req env 0 req.files
        (initLoopState (initSession req sid))).lastAi env.summaryOutcome with
      | some text => (processFiles req env 0 req.files
          (initLoopState (initSession req sid))).reviews ++ [summaryRow req text]
      | none => (processFiles req env 0 req.files
          (initLoopState (initSession req sid))).reviews),
      r.review_type = "bug" ∨ r.review_type = "security" ∨ r.review_type = "summary" := by
    intro r hr
    have h := processFiles_reviews req env req.files 0 (initLoopState (initSession req sid))
      rfl (Nat.le_refl _) (by intro x hx; simp [initLoopState] at hx)
    cases hts : trySummary (processFiles req env 0 req.files
        (initLoopState (initSession req sid))).lastAi env.summaryOutcome with
    | none =>
        rw [hts] at hr
        rcases h.2.2 r hr with h1 | h1
        · exact Or.inl h1
        · exact Or.inr (Or.inl h1)
    | some text =>
        rw [hts] at hr
        rcases List.mem_append.mp hr with hr | hr
        · rcases h.2.2 r hr with h1 | h1
          · exact Or.inl h1
          · exact Or.inr (Or.inl h1)
        · simp only [List.mem_singleton] at hr
          subst hr
          exact Or.inr (Or.inr rfl)
  intro r hr
  cases hc : env.escape with
  | none =>
      rw [runCodeAnalysis_eq req env (initSession req sid) hc] at hr
      exact hmain r hr
  | some site =>
      cases site with
      | sessionLoad msg =>
          unfold runCodeAnalysis at hr
          rw [hc] at hr
          simp at hr
      | claimCommit msg =>
          unfold runCodeAnalysis at hr
          rw [hc] at hr
          simp at hr
      | completionCommit msg =>
          rw [runCodeAnalysis_eq_commitFail req env (initSession req sid) msg hc] at hr
          exact hmain r hr

/-- C10 witness: the theorem applied to a concrete run that persists one
bug row. -/
theorem persisted_row_types_w :
    aiBugRow (mkReq [fileA]) "a.py" bug150 ∈
      (runCodeAnalysis (mkReq [fileA]) envBug150
        (initSession (mkReq [fileA]) "s")).reviews ∧
    ((aiBugRow (mkReq [fileA]) "a.py" bug150).review_type = "bug" ∨
      (aiBugRow (mkReq [fileA]) "a.py" bug150).review_type = "security" ∨
      (aiBugRow (mkReq [fileA]) "a.py" bug150).review_type = "summary") :=
  ⟨by decide, persisted_row_types (mkReq [fileA]) envBug150 "s" _ (by decide)⟩

end CodeSenseAI
